import Mathlib

/-!
Verification of the two utility scripts of this repository:
`visualize_direct_spend.py` (JSON spend records → ASCII line charts) and
`create_ppt.py` (JSON slide descriptions → slide deck with auto-styling).

Python strings are modelled as `List Char` (`PyStr`); Python numbers are
modelled as exact rationals `ℚ` (the scripts' arithmetic is ordinary
field arithmetic plus truncation to `int`); the filesystem and the
pseudo-random `random.choice` are modelled as explicit oracle parameters
(`existsF : PyStr → Bool`, `choose : List PyStr → PyStr`).
-/

abbrev PyStr := List Char

/-- Accumulator pass of Python's no-argument `str.split()`: splits on runs
of whitespace and never returns empty words.  `acc` is the word currently
being read. -/
def pySplitAux (s : List Char) (acc : List Char) : List (List Char) :=
  match s with
  | [] => if acc.isEmpty then [] else [acc]
  | c :: cs =>
    if c.isWhitespace then
      if acc.isEmpty then pySplitAux cs [] else acc :: pySplitAux cs []
    else pySplitAux cs (acc ++ [c])

/-- Python's `line.split()` (no separator argument). -/
def pySplit (s : PyStr) : List PyStr := pySplitAux s []

/-- Does `hay` start with `pat`? (helper for substring containment). -/
def strStarts : List Char → List Char → Bool
  | _, [] => true
  | [], _ :: _ => false
  | c :: cs, d :: ds => c == d && strStarts cs ds

/-- Python's `pat in hay` substring test on strings. -/
def strHas (hay pat : List Char) : Bool :=
  match hay with
  | [] => strStarts [] pat
  | _ :: t => strStarts hay pat || strHas t pat

/-- Python's `str.lower()` (ASCII case folding suffices for the
keyword tables of this repository). -/
def pyLower (s : PyStr) : PyStr := s.map Char.toLower

/-- Python's `" ".join(words)`. -/
def joinSpace (ws : List PyStr) : PyStr := List.intercalate [' '] ws

/-! ## `create_ppt.py`: asset tables (lines 35-83) -/

/-- `BACKGROUND_IMAGES` (lines 35-37). -/
def BACKGROUND_IMAGES : List PyStr :=
  ["bg1.jpg".toList, "bg2.png".toList, "bg3.png".toList,
   "bg4.jpg".toList, "bg5.jpg".toList]

/-- `LOGO_IMAGES` (lines 40-42). -/
def LOGO_IMAGES : List PyStr :=
  ["fm_logo_1.png".toList, "fm_logo_2.png".toList, "fm_logo_3.png".toList]

/-- `CONTENT_BACKGROUNDS` (lines 45-83), as an association list in the
dict's insertion order (Python dicts iterate in insertion order). -/
def CONTENT_BACKGROUNDS : List (PyStr × List PyStr) :=
  [("business".toList, ["bg4.jpg".toList, "bg5.jpg".toList]),
   ("professional".toList, ["bg4.jpg".toList, "bg5.jpg".toList]),
   ("corporate".toList, ["bg4.jpg".toList, "bg5.jpg".toList]),
   ("meeting".toList, ["bg5.jpg".toList]),
   ("presentation".toList, ["bg4.jpg".toList, "bg5.jpg".toList]),
   ("technology".toList, ["bg2.png".toList, "bg3.png".toList]),
   ("digital".toList, ["bg2.png".toList, "bg3.png".toList]),
   ("platform".toList, ["bg2.png".toList, "bg3.png".toList]),
   ("software".toList, ["bg2.png".toList, "bg3.png".toList]),
   ("app".toList, ["bg2.png".toList, "bg3.png".toList]),
   ("online".toList, ["bg2.png".toList, "bg3.png".toList]),
   ("analytics".toList, ["bg3.png".toList]),
   ("data".toList, ["bg3.png".toList]),
   ("metrics".toList, ["bg3.png".toList]),
   ("performance".toList, ["bg3.png".toList]),
   ("reporting".toList, ["bg3.png".toList]),
   ("marketing".toList, ["bg1.jpg".toList]),
   ("growth".toList, ["bg1.jpg".toList]),
   ("campaign".toList, ["bg1.jpg".toList]),
   ("audience".toList, ["bg1.jpg".toList]),
   ("conversion".toList, ["bg1.jpg".toList]),
   ("overview".toList, ["bg1.jpg".toList, "bg4.jpg".toList]),
   ("introduction".toList, ["bg1.jpg".toList, "bg4.jpg".toList]),
   ("summary".toList, ["bg4.jpg".toList, "bg5.jpg".toList]),
   ("conclusion".toList, ["bg4.jpg".toList, "bg5.jpg".toList]),
   ("features".toList, ["bg2.png".toList, "bg3.png".toList]),
   ("benefits".toList, ["bg1.jpg".toList, "bg4.jpg".toList]),
   ("solutions".toList, ["bg2.png".toList, "bg4.jpg".toList])]

/-- `str(BACKGROUNDS_PATH / name)`: the full path of a background asset.
The machine-dependent directory part is modelled by a fixed tag. -/
def bgPath (name : PyStr) : PyStr := "assets/backgrounds/".toList ++ name

/-- `str(LOGOS_PATH / name)`: the full path of a logo asset. -/
def logoPath (name : PyStr) : PyStr := "assets/logos/".toList ++ name

/-- The `full_text = f"{title_lower} {content_text}"` string built at
lines 88-90 of `select_background_by_content`. -/
def fullTextOf (title : PyStr) (content : List PyStr) : PyStr :=
  pyLower title ++ [' '] ++ pyLower (joinSpace content)

/-- The category loop of `select_background_by_content` (lines 93-98):
for each table entry whose keyword occurs in `full_text`, draw one
candidate; return its path if the file exists, otherwise keep scanning. -/
def scanCategories (choose : List PyStr → PyStr) (existsF : PyStr → Bool)
    (full_text : PyStr) : List (PyStr × List PyStr) → Option PyStr
  | [] => none
  | (cat, bgs) :: rest =>
    if strHas full_text cat then
      let sel := choose bgs
      if existsF (bgPath sel) then some (bgPath sel)
      else scanCategories choose existsF full_text rest
    else scanCategories choose existsF full_text rest

/-- `select_background_by_content` (lines 86-106).  `choose` stands for
`random.choice`, `existsF` for `Path.exists`. -/
def select_background_by_content (choose : List PyStr → PyStr)
    (existsF : PyStr → Bool) (title : PyStr) (content : List PyStr) :
    Option PyStr :=
  let full_text := fullTextOf title content
  match scanCategories choose existsF full_text CONTENT_BACKGROUNDS with
  | some p => some p
  | none =>
    let available_bgs := BACKGROUND_IMAGES.filter (fun bg => existsF (bgPath bg))
    if available_bgs.isEmpty then none
    else some (bgPath (choose available_bgs))

/-- `select_logo_by_content` (lines 109-116): random choice among the
logo assets whose files exist (the `title` and `content` arguments are
ignored by the source: "For now, use random logo selection"). -/
def select_logo_by_content (choose : List PyStr → PyStr)
    (existsF : PyStr → Bool) (_title : PyStr) (_content : List PyStr) :
    Option PyStr :=
  let available_logos := LOGO_IMAGES.filter (fun lg => existsF (logoPath lg))
  if available_logos.isEmpty then none
  else some (logoPath (choose available_logos))

/-- `should_add_background` (lines 119-135). -/
def should_add_background (slide_type : PyStr) (title : PyStr)
    (has_existing_background : Bool) : Bool :=
  if has_existing_background then false
  else if slide_type ∈ ["metrics_dashboard".toList, "comparison".toList] then false
  else if slide_type ∈ ["title".toList, "section_header".toList,
      "visual_content".toList] then true
  else
    ["overview".toList, "introduction".toList, "summary".toList,
     "conclusion".toList, "features".toList, "benefits".toList].any
      (fun kw => strHas (pyLower title) kw)

/-- `should_add_logo` (lines 138-149); the `title` argument is unused by
the source body. -/
def should_add_logo (slide_type : PyStr) (_title : PyStr)
    (has_background : Bool) : Bool :=
  if has_background then false
  else if slide_type ∈ ["title".toList, "section_header".toList,
      "metrics_dashboard".toList] then false
  else slide_type ∈ ["content".toList, "comparison".toList,
      "visual_content".toList, "two_column".toList]

/-! ## `create_ppt.py`: 6x6 rule and content hierarchy (lines 206-261) -/

/-- `optimize_content_for_6x6` (lines 206-221): keep at most the first 6
lines; a line of more than 6 words becomes its first 6 words joined by
single spaces with `'...'` appended (the source's inner
`if len(words) > 6` re-test is always true on that branch). -/
def optimizeLine (line : PyStr) : PyStr :=
  let words := pySplit line
  if 6 < words.length then
    List.intercalate [' '] (words.take 6) ++ "...".toList
  else line

def optimize_content_for_6x6 (content : List PyStr) : List PyStr :=
  (content.take 6).map optimizeLine

/-- `RGBColor` values. -/
structure Rgb where
  r : ℕ
  g : ℕ
  b : ℕ
deriving DecidableEq, Repr

/-- The single `'feedmob'` palette of `COLOR_SCHEMES` (lines 376-390). -/
structure ColorScheme where
  primary : Rgb
  secondary : Rgb
  accent1 : Rgb
  accent2 : Rgb
  accent3 : Rgb
  accent4 : Rgb
  accent5 : Rgb
  text : Rgb
  background : Rgb
  background_alt : Rgb
  text_light : Rgb
deriving DecidableEq, Repr

def feedmobScheme : ColorScheme :=
  { primary := ⟨5, 141, 199⟩
    secondary := ⟨21, 129, 88⟩
    accent1 := ⟨80, 180, 50⟩
    accent2 := ⟨237, 86, 27⟩
    accent3 := ⟨237, 239, 0⟩
    accent4 := ⟨36, 203, 229⟩
    accent5 := ⟨100, 229, 114⟩
    text := ⟨0, 0, 0⟩
    background := ⟨255, 255, 255⟩
    background_alt := ⟨243, 243, 243⟩
    text_light := ⟨21, 129, 88⟩ }

/-- `COLOR_SCHEMES.get(name, COLOR_SCHEMES['feedmob'])`: the table has the
single key `'feedmob'`, so every lookup yields the feedmob palette. -/
def COLOR_SCHEMES_get (name : PyStr) : ColorScheme :=
  if name = "feedmob".toList then feedmobScheme else feedmobScheme

/-- One output record of `enhance_content_hierarchy` (lines 254-259). -/
structure EnhancedItem where
  text : PyStr
  color : Rgb
  bold : Bool
  emphasis : String
deriving DecidableEq, Repr

/-- The action-word list of line 242. -/
def actionWords : List PyStr :=
  ["improve".toList, "increase".toList, "achieve".toList,
   "deliver".toList, "enhance".toList, "optimize".toList]

/-- `metrics_pattern.search(text)` for the regex
`\d+%|\$\d+|\d+\.?\d*[KMB]?` (line 243): the third alternative matches
any single decimal digit, so the search succeeds exactly when the text
contains a digit. -/
def metricsSearch (text : PyStr) : Bool := text.any Char.isDigit

/-- The body of the `enumerate(content)` loop of
`enhance_content_hierarchy` (lines 229-259), at index `i`. -/
def enhanceItem (colors : ColorScheme) (i : ℕ) (text : PyStr) : EnhancedItem :=
  let base : String × Rgb × Bool :=
    if i = 0 then ("high", colors.primary, true) else ("normal", colors.text, false)
  let final : String × Rgb × Bool :=
    if actionWords.any (fun w => strHas (pyLower text) w) then
      ("medium", colors.accent1, true)
    else if metricsSearch text then
      ("medium", colors.accent2, true)
    else base
  { text := text, color := final.2.1, bold := final.2.2, emphasis := final.1 }

/-- Index-carrying recursion mirroring `for i, text in enumerate(content)`. -/
def enhanceAux (colors : ColorScheme) (i : ℕ) : List PyStr → List EnhancedItem
  | [] => []
  | text :: rest => enhanceItem colors i text :: enhanceAux colors (i + 1) rest

/-- `enhance_content_hierarchy` (lines 224-261). -/
def enhance_content_hierarchy (content : List PyStr) (color_scheme : PyStr) :
    List EnhancedItem :=
  enhanceAux (COLOR_SCHEMES_get color_scheme) 0 content

example : optimize_content_for_6x6 ["one two three four five six seven".toList]
    = ["one two three four five six...".toList] := by decide

example : (enhance_content_hierarchy ["improve results".toList] "feedmob".toList).map
    (fun it => it.emphasis) = ["medium"] := by decide

/-! ## `create_ppt.py`: the per-slide auto-background / auto-logo decisions
of `create_presentation_from_json` (lines 1150-1318) -/

/-- The fields of one entry of `json_data['slides']` that feed the
auto-background / auto-logo decisions. -/
structure SlideData where
  type : PyStr
  title : PyStr
  content : List PyStr
  left_points : List PyStr
  right_points : List PyStr
  left_content : List PyStr
  right_content : List PyStr
  background_image : Option PyStr
  image : Option PyStr
  text : Option PyStr
deriving Repr

/-- The background and logo applied to one slide by the dispatch of
`create_presentation_from_json` (lines 1164-1315): for each branch of the
`elif` chain we record the auto-selected background path (first
component) and the logo path handed to `add_logo_to_slide` (second
component).  An unknown `type` string matches no branch and produces no
slide. -/
def slideAutoAssets (auto_backgrounds auto_logos : Bool)
    (choose : List PyStr → PyStr) (existsF : PyStr → Bool)
    (sd : SlideData) : Option PyStr × Option PyStr :=
  if sd.type = "title".toList then
    let bg := if sd.background_image = none ∧ auto_backgrounds then
        select_background_by_content choose existsF sd.title []
      else sd.background_image
    (bg, none)
  else if sd.type = "visual_content".toList then
    let bg := if auto_backgrounds ∧ should_add_background sd.type sd.title false
      then select_background_by_content choose existsF sd.title sd.content
      else none
    let logo := if auto_logos ∧ should_add_logo sd.type sd.title bg.isSome
      then select_logo_by_content choose existsF sd.title sd.content
      else none
    (bg, logo)
  else if sd.type = "metrics_dashboard".toList then
    let logo := if auto_logos ∧ should_add_logo sd.type sd.title false
      then select_logo_by_content choose existsF sd.title []
      else none
    (none, logo)
  else if sd.type = "content".toList then
    let bg := if auto_backgrounds ∧ should_add_background sd.type sd.title false
      then select_background_by_content choose existsF sd.title sd.content
      else none
    let logo := if auto_logos ∧ should_add_logo sd.type sd.title bg.isSome
      then select_logo_by_content choose existsF sd.title sd.content
      else none
    (bg, logo)
  else if sd.type = "section_header".toList then
    let bg := if auto_backgrounds ∧ should_add_background sd.type sd.title false
      then select_background_by_content choose existsF sd.title []
      else none
    (bg, none)
  else if sd.type = "comparison".toList then
    let logo := if auto_logos ∧ should_add_logo sd.type sd.title false
      then select_logo_by_content choose existsF sd.title
        (sd.left_points ++ sd.right_points)
      else none
    (none, logo)
  else if sd.type = "two_column".toList then
    let logo := if auto_logos ∧ should_add_logo sd.type sd.title false
      then select_logo_by_content choose existsF sd.title
        (sd.left_content ++ sd.right_content)
      else none
    (none, logo)
  else if sd.type = "blank".toList then
    let logo := if auto_logos ∧ sd.image = none
      then select_logo_by_content choose existsF
        (sd.text.getD "Blank Slide".toList) []
      else none
    (none, logo)
  else (none, none)

/-! ## `visualize_direct_spend.py`: data model -/

/-- A Python value usable as a `dict` key (hashable JSON scalar). -/
inductive JKey where
  | knull
  | kbool (b : Bool)
  | knum (q : ℚ)
  | kstr (s : PyStr)
deriving DecidableEq, Repr

/-- A spend record that has all four required fields
(`feedmob_click_url_id`, `date`, `feedmob_net_spend`,
`feedmob_gross_spend`); `campaign_name` is optional
(`record.get('campaign_name', 'Unknown')`). -/
structure SpendRecord where
  feedmob_click_url_id : JKey
  date : PyStr
  feedmob_net_spend : ℚ
  feedmob_gross_spend : ℚ
  campaign_name : Option PyStr
deriving DecidableEq, Repr

/-- The per-record dict built at lines 22-27 of
`parse_direct_spend_data`. -/
structure SpendEntry where
  date : PyStr
  net_spend : ℚ
  gross_spend : ℚ
  campaign_name : PyStr
deriving DecidableEq, Repr

instance : Inhabited SpendEntry := ⟨⟨[], 0, 0, []⟩⟩

def toEntry (r : SpendRecord) : SpendEntry :=
  { date := r.date
    net_spend := r.feedmob_net_spend
    gross_spend := r.feedmob_gross_spend
    campaign_name := r.campaign_name.getD "Unknown".toList }

/-- `spend_by_url[click_url_id].append(entry)` on a `defaultdict(list)`
kept as an association list in key-insertion order. -/
def addEntry (k : JKey) (e : SpendEntry) :
    List (JKey × List SpendEntry) → List (JKey × List SpendEntry)
  | [] => [(k, [e])]
  | (k2, l) :: rest =>
    if k2 = k then (k2, l ++ [e]) :: rest else (k2, l) :: addEntry k e rest

/-- The sort key of line 31: compare entries by date (lexicographic
string order, as Python compares strings). -/
def dateLe (a b : SpendEntry) : Prop := a.date ≤ b.date

instance : DecidableRel dateLe :=
  fun a b => inferInstanceAs (Decidable (a.date ≤ b.date))

instance : IsTotal SpendEntry dateLe := ⟨fun a b => le_total a.date b.date⟩

instance : IsTrans SpendEntry dateLe := ⟨fun _ _ _ h1 h2 => le_trans h1 h2⟩

/-- `parse_direct_spend_data` (lines 16-33) on records that have the
required fields: group by `feedmob_click_url_id`, then sort each group
by date with a stable sort (Python `list.sort` is stable; insertion sort
is used as the stable sort here). -/
def parse_direct_spend_data (records : List SpendRecord) :
    List (JKey × List SpendEntry) :=
  let grouped := records.foldl
    (fun acc r => addEntry r.feedmob_click_url_id (toEntry r) acc) []
  grouped.map (fun p => (p.1, List.insertionSort dateLe p.2))

/-! ## `visualize_direct_spend.py`: ASCII chart rendering (lines 36-128) -/

/-- Python `int(q)`: truncation toward zero. -/
def truncToZero (q : ℚ) : ℤ := if 0 ≤ q then ⌊q⌋ else ⌈q⌉

/-- Round to the nearest integer, ties to even: the rounding used by
Python's fixed-point float formatting. -/
def roundHalfEven (q : ℚ) : ℤ :=
  let f := ⌊q⌋
  let r := q - (f : ℚ)
  if r < 1 / 2 then f
  else if 1 / 2 < r then f + 1
  else if f % 2 = 0 then f else f + 1

/-- Decimal digits of an integer. -/
def intDigits (n : ℤ) : PyStr :=
  (if n < 0 then "-".toList else []) ++ Nat.toDigits 10 n.natAbs

/-- `f"{q:.2f}"`: two-decimal fixed-point rendering of a number (real
arithmetic modelled exactly on ℚ). -/
def formatFixed2 (q : ℚ) : PyStr :=
  let c := roundHalfEven (q * 100)
  let a := c.natAbs
  (if c < 0 then "-".toList else []) ++ Nat.toDigits 10 (a / 100) ++
    ".".toList ++ (if a % 100 < 10 then "0".toList else []) ++ Nat.toDigits 10 (a % 100)

/-- Left-pad with spaces to width `w` (Python `>`-alignment). -/
def padLeft (w : ℕ) (s : PyStr) : PyStr := List.replicate (w - s.length) ' ' ++ s

/-- Right-pad with spaces to width `w` (Python `<`-alignment). -/
def padRight (w : ℕ) (s : PyStr) : PyStr := s ++ List.replicate (w - s.length) ' '

/-- Python `str.center(w)` (CPython puts the extra space on the left
exactly when both the margin and the width are odd). -/
def pyCenter (w : ℕ) (s : PyStr) : PyStr :=
  if w ≤ s.length then s
  else
    let marg := w - s.length
    let left := marg / 2 + (if marg % 2 = 1 ∧ w % 2 = 1 then 1 else 0)
    List.replicate left ' ' ++ s ++ List.replicate (marg - left) ' '

/-- Python `min` over a list (total with default 0; only applied to
nonempty lists by the renderer). -/
def pyMin : List ℚ → ℚ
  | [] => 0
  | x :: xs => xs.foldl min x

/-- Python `max` over a list. -/
def pyMax : List ℚ → ℚ
  | [] => 0
  | x :: xs => xs.foldl max x

/-- Lines 45-51 of `create_ascii_line_chart`: the scaling bounds
`(min_val, max_val)` over both series, with `max_val = min_val + 1`
when the two coincide ("Avoid division by zero"). -/
def chartBounds (data : List SpendEntry) : ℚ × ℚ :=
  let all_values := data.map (fun e => e.net_spend) ++ data.map (fun e => e.gross_spend)
  let min_val := pyMin all_values
  let max_val := pyMax all_values
  (min_val, if max_val = min_val then min_val + 1 else max_val)

/-- The `scale` closure of lines 61-62:
`int((value - min_val) / (max_val - min_val) * (height - 1))`. -/
def scaleValue (min_val max_val : ℚ) (height : ℕ) (value : ℚ) : ℤ :=
  truncToZero ((value - min_val) / (max_val - min_val) * ((height : ℚ) - 1))

/-- The point-plotting loop of lines 76-87 for one chart row: one mark
per data point (`*` both, `N` net only, `G` gross only, blank neither),
with a single separating space after every mark but the last. -/
def plotBody (netS grossS : List ℤ) (row : ℤ) : PyStr :=
  (List.range netS.length).foldl
    (fun acc i =>
      let mark : PyStr :=
        if netS.getD i 0 = row ∧ grossS.getD i 0 = row then ['*']
        else if netS.getD i 0 = row then ['N']
        else if grossS.getD i 0 = row then ['G']
        else [' ']
      acc ++ mark ++ (if i < netS.length - 1 then [' '] else [])) []

/-- One chart row (lines 68-89): the y-axis dollar label followed by the
plotted marks. -/
def plotRowLine (netS grossS : List ℤ) (min_val max_val : ℚ) (height : ℕ)
    (row : ℕ) : PyStr :=
  let value := min_val + ((row : ℚ) / ((height : ℚ) - 1)) * (max_val - min_val)
  '$' :: padLeft 7 (formatFixed2 value) ++ " |".toList ++ plotBody netS grossS (row : ℤ)

/-- The list of output lines of `create_ascii_line_chart` for nonempty
data, in the order the source appends them (lines 54-126), before the
final `"\n".join`. -/
def chartLines (data : List SpendEntry) (title : PyStr) (width height : ℕ) :
    List PyStr :=
  let dates := data.map (fun e => e.date)
  let net_spends := data.map (fun e => e.net_spend)
  let gross_spends := data.map (fun e => e.gross_spend)
  let mm := chartBounds data
  let net_scaled := net_spends.map (scaleValue mm.1 mm.2 height)
  let gross_scaled := gross_spends.map (scaleValue mm.1 mm.2 height)
  let dateLines : List PyStr :=
    if 3 ≤ dates.length then
      ["         ".toList ++ dates.headD [] ++
        List.replicate (width - (dates.headD []).length - (dates.getLastD []).length - 12) ' ' ++
        dates.getLastD []]
    else if 0 < dates.length then ["         ".toList ++ dates.headD []]
    else []
  let tableRow := fun (e : SpendEntry) =>
    padRight 12 e.date ++ [' ', '$'] ++ padLeft 12 (formatFixed2 e.net_spend) ++
      [' ', '$'] ++ padLeft 12 (formatFixed2 e.gross_spend)
  ['\n' :: List.replicate width '=',
   pyCenter width title,
   List.replicate width '=',
   []] ++
  (List.range height).reverse.map (plotRowLine net_scaled gross_scaled mm.1 mm.2 height) ++
  ["        +".toList ++ List.replicate (width - 10) '-'] ++
  dateLines ++
  [[],
   "Legend: N = Net Spend, G = Gross Spend, * = Both".toList,
   [],
   "Detailed Data (USD):".toList,
   List.replicate width '-',
   padRight 12 "Date".toList ++ [' '] ++ padLeft 13 "Net Spend".toList ++
     [' '] ++ padLeft 13 "Gross Spend".toList,
   List.replicate width '-'] ++
  data.map tableRow ++
  [List.replicate width '-',
   padRight 12 "TOTAL".toList ++ [' ', '$'] ++ padLeft 12 (formatFixed2 net_spends.sum) ++
     [' ', '$'] ++ padLeft 12 (formatFixed2 gross_spends.sum),
   List.replicate width '=']

/-- `create_ascii_line_chart` (lines 36-128). -/
def create_ascii_line_chart (data : List SpendEntry) (title : PyStr)
    (width height : ℕ) : PyStr :=
  if data.isEmpty then "No data to display".toList
  else List.intercalate ['\n'] (chartLines data title width height)

/-! ## `visualize_direct_spend.py`: JSON-level input handling
(lines 16-33 and 131-166) -/

/-- A parsed JSON value. -/
inductive Json where
  | null
  | bool (b : Bool)
  | num (q : ℚ)
  | str (s : PyStr)
  | arr (items : List Json)
  | obj (fields : List (PyStr × Json))

instance : Inhabited Json := ⟨Json.null⟩

/-- `key in dict` / `dict[key]` lookup on an object's field list. -/
def jLookup (k : PyStr) : List (PyStr × Json) → Option Json
  | [] => none
  | (k2, v) :: rest => if k2 = k then some v else jLookup k rest

/-- Python truthiness of a JSON value (`if not records`). -/
def truthy : Json → Bool
  | .null => false
  | .bool b => b
  | .num q => decide (q ≠ 0)
  | .str s => !s.isEmpty
  | .arr l => !l.isEmpty
  | .obj l => !l.isEmpty

/-- A single-quote character (the quoting used by `str(KeyError(k))`). -/
def squote : Char := Char.ofNat 39

/-- `str(e)` for the `KeyError` raised by `record[k]`: the repr of the
missing key, i.e. the key in single quotes. -/
def keyErrMsg (k : PyStr) : PyStr := squote :: (k ++ [squote])

/-- `record[k]` on a JSON value: a `KeyError` when the key is absent, a
type error when the record is not an object. -/
def jGetField (j : Json) (k : PyStr) : Except PyStr Json :=
  match j with
  | .obj fields =>
    match jLookup k fields with
    | some v => Except.ok v
    | none => Except.error (keyErrMsg k)
  | _ => Except.error "record is not a dict".toList

/-- Using a JSON value as a `defaultdict` key: lists and dicts are
unhashable and raise `TypeError`. -/
def asKey : Json → Except PyStr JKey
  | .null => Except.ok JKey.knull
  | .bool b => Except.ok (JKey.kbool b)
  | .num q => Except.ok (JKey.knum q)
  | .str s => Except.ok (JKey.kstr s)
  | .arr _ => Except.error "unhashable type: list".toList
  | .obj _ => Except.error "unhashable type: dict".toList

/-- A spend amount must be a JSON number (a non-number would raise a
`TypeError` in the chart arithmetic downstream; the model surfaces it at
parse time). -/
def asNum : Json → Except PyStr ℚ
  | .num q => Except.ok q
  | _ => Except.error "unsupported operand type for spend value".toList

/-- A date must be a JSON string (the API schema's sortable date
string; mixed-type dates would raise a `TypeError` in Python's sort). -/
def asStr : Json → Except PyStr PyStr
  | .str s => Except.ok s
  | _ => Except.error "date is not a string".toList

/-- Cosmetic display of a JSON scalar inside an f-string (approximates
Python's formatting; only used for chart titles). -/
def jsonDisplay : Json → PyStr
  | .null => "None".toList
  | .bool b => if b then "True".toList else "False".toList
  | .num q => if q.den = 1 then intDigits q.num
      else intDigits q.num ++ "/".toList ++ Nat.toDigits 10 q.den
  | .str s => s
  | .arr _ => "<list>".toList
  | .obj _ => "<dict>".toList

/-- Cosmetic display of a group key inside the chart title. -/
def jkeyDisplay : JKey → PyStr
  | .knull => "None".toList
  | .kbool b => if b then "True".toList else "False".toList
  | .knum q => if q.den = 1 then intDigits q.num
      else intDigits q.num ++ "/".toList ++ Nat.toDigits 10 q.den
  | .kstr s => s

/-- The body of the record loop of `parse_direct_spend_data`
(lines 20-27) on one raw JSON record: read the required fields in the
source's evaluation order, failing like Python on a missing key. -/
def parseRecordJson (j : Json) : Except PyStr (JKey × SpendEntry) := do
  let kid ← jGetField j "feedmob_click_url_id".toList
  let k ← asKey kid
  let d ← jGetField j "date".toList
  let date ← asStr d
  let n ← jGetField j "feedmob_net_spend".toList
  let net ← asNum n
  let g ← jGetField j "feedmob_gross_spend".toList
  let gross ← asNum g
  let campaign :=
    match j with
    | .obj fields =>
      match jLookup "campaign_name".toList fields with
      | some v => jsonDisplay v
      | none => "Unknown".toList
    | _ => "Unknown".toList
  return (k, { date := date, net_spend := net, gross_spend := gross,
               campaign_name := campaign })

/-- The record loop of `parse_direct_spend_data` over raw JSON records,
stopping at the first failing record as the raised exception would. -/
def parseSpendAux (acc : List (JKey × List SpendEntry)) :
    List Json → Except PyStr (List (JKey × List SpendEntry))
  | [] => Except.ok acc
  | j :: rest =>
    match parseRecordJson j with
    | Except.error e => Except.error e
    | Except.ok (k, e) => parseSpendAux (addEntry k e acc) rest

/-- `parse_direct_spend_data` on the raw JSON `records` value: iterate
(only lists are iterable records here), group, then sort each group by
date. -/
def parse_direct_spend_json (records : Json) :
    Except PyStr (List (JKey × List SpendEntry)) :=
  match records with
  | .arr l =>
    (parseSpendAux [] l).map
      (fun g => g.map (fun p => (p.1, List.insertionSort dateLe p.2)))
  | _ => Except.error "records object is not iterable".toList

/-- Line 147's literal no-data message. -/
def noDataMsg : PyStr :=
  "No direct spend data found for the specified parameters.".toList

/-- Lines 141-144: `data['data']` when the top-level value is an object
with a `data` key, the value itself otherwise. -/
def extractRecords (data : Json) : Json :=
  match data with
  | .obj fields =>
    match jLookup "data".toList fields with
    | some v => v
    | none => .obj fields
  | j => j

/-- Lines 146-161 of `visualize_direct_spend`, after JSON decoding: the
no-data check, grouping, and per-group chart rendering; any exception of
the grouping loop becomes the `f"Error: {e}"` string of line 166. -/
def visualize_core (data : Json) : PyStr :=
  let records := extractRecords data
  if !truthy records then noDataMsg
  else
    match parse_direct_spend_json records with
    | Except.error e => "Error: ".toList ++ e
    | Except.ok groups =>
      List.intercalate "\n\n".toList (groups.map (fun p =>
        let campaign := (p.2.headD default).campaign_name
        create_ascii_line_chart p.2
          ("Click URL #".toList ++ jkeyDisplay p.1 ++ ": ".toList ++ campaign)
          60 15))

/-- `visualize_direct_spend` (lines 131-166) on a string input.  The
standard-library `json.loads` is modelled by the caller-supplied parse
outcome: `Except.error e` is a `json.JSONDecodeError` with message `e`,
turned into the literal parse-error string of line 164. -/
def visualize_direct_spend (parsed : Except PyStr Json) : PyStr :=
  match parsed with
  | Except.error e => "Error: Invalid JSON data - ".toList ++ e
  | Except.ok data => visualize_core data

/-- Observer for the partition property: all `(key, entry)` pairs of a
grouped structure, in group order. -/
def flattenGroups (g : List (JKey × List SpendEntry)) : List (JKey × SpendEntry) :=
  g.flatMap (fun p => p.2.map (fun e => (p.1, e)))

/-- A raw JSON record has the four fields required by
`parse_direct_spend_data`. -/
def hasRequiredFields (r : Json) : Bool :=
  (jGetField r "feedmob_click_url_id".toList).isOk &&
  (jGetField r "date".toList).isOk &&
  (jGetField r "feedmob_net_spend".toList).isOk &&
  (jGetField r "feedmob_gross_spend".toList).isOk

/-! ## Supporting lemmas and claim theorems -/

instance : Inhabited EnhancedItem := ⟨⟨[], ⟨0, 0, 0⟩, false, ""⟩⟩

/-- C1: `optimize_content_for_6x6` keeps exactly 6 items of a longer
list and all items of a shorter one; position `i` of the result is the
`i`-th input line, replaced by its first 6 words plus `'...'` exactly
when it has more than 6 words. -/
theorem optimize6x6_spec (c : List PyStr) :
    (6 < c.length → (optimize_content_for_6x6 c).length = 6) ∧
    (c.length ≤ 6 → (optimize_content_for_6x6 c).length = c.length) ∧
    ∀ i, i < (optimize_content_for_6x6 c).length →
      (optimize_content_for_6x6 c).getD i [] =
        (if 6 < (pySplit (c.getD i [])).length then
          List.intercalate [' '] ((pySplit (c.getD i [])).take 6) ++ "...".toList
         else c.getD i []) := by
  refine ⟨?_, ?_, ?_⟩
  · intro h
    simp [optimize_content_for_6x6]
    omega
  · intro h
    simp [optimize_content_for_6x6]
    omega
  · intro i hi
    have hlen : (optimize_content_for_6x6 c).length = min c.length 6 := by
      simp [optimize_content_for_6x6]
      omega
    have hic : i < c.length := by omega
    have hi6 : i < (c.take 6).length := by simp; omega
    rw [List.getD_eq_getElem _ _ hi, List.getD_eq_getElem _ _ hic]
    simp [optimize_content_for_6x6, optimizeLine]

/-- C1 witness: the theorem applied to a 7-line list whose first line has
7 words and to a short list. -/
theorem optimize6x6_spec_witness :
    (optimize_content_for_6x6 ["one two three four five six seven".toList,
      "a".toList, "b".toList, "c".toList, "d".toList, "e".toList, "f".toList]).length = 6 ∧
    (optimize_content_for_6x6 ["alpha beta".toList]).length = 1 ∧
    (optimize_content_for_6x6 ["one two three four five six seven".toList,
      "a".toList, "b".toList, "c".toList, "d".toList, "e".toList, "f".toList]).getD 0 []
      = "one two three four five six...".toList := by
  refine ⟨(optimize6x6_spec _).1 (by decide), (optimize6x6_spec _).2.1 (by decide), ?_⟩
  exact ((optimize6x6_spec _).2.2 0 (by decide)).trans (by decide)

lemma enhanceAux_length (colors : ColorScheme) (j : ℕ) (l : List PyStr) :
    (enhanceAux colors j l).length = l.length := by
  induction l generalizing j with
  | nil => rfl
  | cons a t ih => simp [enhanceAux, ih]

lemma enhanceAux_getD (colors : ColorScheme) (l : List PyStr) :
    ∀ (j i : ℕ), i < l.length →
      (enhanceAux colors j l).getD i default = enhanceItem colors (j + i) (l.getD i []) := by
  induction l with
  | nil => intro j i hi; simp at hi
  | cons a t ih =>
    intro j i hi
    cases i with
    | zero => simp [enhanceAux]
    | succ k =>
      have hk : k < t.length := by simpa using hi
      have := ih (j + 1) k hk
      simpa [enhanceAux, Nat.add_assoc, Nat.add_comm 1 k] using this

/-- C4 (amended): `enhance_content_hierarchy` keeps the input length and
styles bullet `i` by priority: a bullet containing an action verb is
medium emphasis (accent1, bold); otherwise a bullet containing a digit
(everything the numeric/currency/percentage regex can match) is medium
emphasis (accent2, bold); otherwise the first bullet is high emphasis
(primary, bold); all remaining bullets are normal (text color, not
bold).  In particular a first bullet that contains an action verb or a
digit is medium, not high. -/
theorem enhance_hierarchy_spec (content : List PyStr) (scheme : PyStr) :
    (enhance_content_hierarchy content scheme).length = content.length ∧
    ∀ i, i < content.length →
      (enhance_content_hierarchy content scheme).getD i default =
        (let colors := COLOR_SCHEMES_get scheme
         let text := content.getD i []
         if actionWords.any (fun w => strHas (pyLower text) w) then
           ⟨text, colors.accent1, true, "medium"⟩
         else if metricsSearch text then
           ⟨text, colors.accent2, true, "medium"⟩
         else if i = 0 then
           ⟨text, colors.primary, true, "high"⟩
         else
           ⟨text, colors.text, false, "normal"⟩) := by
  refine ⟨enhanceAux_length _ _ _, ?_⟩
  intro i hi
  have h := enhanceAux_getD (COLOR_SCHEMES_get scheme) content 0 i hi
  rw [enhance_content_hierarchy, h]
  simp only [enhanceItem, Nat.zero_add]
  split_ifs <;> rfl

/-- C4 counterexample to the claim as stated: the first bullet of
`["improve results"]` contains an action verb, and the code assigns it
medium emphasis, not the claimed high emphasis. -/
theorem enhance_first_bullet_not_high :
    (enhance_content_hierarchy ["improve results".toList] "feedmob".toList).map
      (fun it => it.emphasis) = ["medium"] ∧ ("medium" : String) ≠ "high" := by
  constructor
  · decide
  · decide

/-- C4 witness: the amended characterization applied to a concrete
three-bullet list exercising all four styling cases. -/
theorem enhance_hierarchy_spec_witness :
    (enhance_content_hierarchy ["improve results".toList, "92% growth in Q3".toList,
      "plain words".toList] "feedmob".toList).length = 3 ∧
    (enhance_content_hierarchy ["improve results".toList, "92% growth in Q3".toList,
      "plain words".toList] "feedmob".toList).getD 1 default =
      ⟨"92% growth in Q3".toList, ⟨237, 86, 27⟩, true, "medium"⟩ ∧
    (enhance_content_hierarchy ["improve results".toList, "92% growth in Q3".toList,
      "plain words".toList] "feedmob".toList).getD 2 default =
      ⟨"plain words".toList, ⟨0, 0, 0⟩, false, "normal"⟩ := by
  refine ⟨(enhance_hierarchy_spec _ _).1, ?_, ?_⟩
  · exact ((enhance_hierarchy_spec _ _).2 1 (by decide)).trans (by decide)
  · exact ((enhance_hierarchy_spec _ _).2 2 (by decide)).trans (by decide)

lemma pySplitAux_word (w : List Char) (hw : ∀ c ∈ w, c.isWhitespace = false) :
    ∀ (s acc : List Char), pySplitAux (w ++ s) acc = pySplitAux s (acc ++ w) := by
  induction w with
  | nil => intro s acc; simp
  | cons c cs ih =>
    intro s acc
    have hc : c.isWhitespace = false := hw c (List.mem_cons_self c cs)
    have hcs : ∀ d ∈ cs, d.isWhitespace = false :=
      fun d hd => hw d (List.mem_cons_of_mem c hd)
    have h1 : pySplitAux ((c :: cs) ++ s) acc = pySplitAux (cs ++ s) (acc ++ [c]) := by
      simp only [List.cons_append, pySplitAux, hc, Bool.false_eq_true, if_false,
        List.append_eq]
    rw [h1, ih hcs, List.append_assoc]
    rfl

lemma pySplitAux_space (s acc : List Char) :
    pySplitAux (' ' :: s) acc =
      if acc.isEmpty then pySplitAux s [] else acc :: pySplitAux s [] := by
  simp [pySplitAux]

lemma intercalate_single (sep a : List Char) : List.intercalate sep [a] = a := by
  simp [List.intercalate]

lemma intercalate_cons_cons (sep a b : List Char) (l : List (List Char)) :
    List.intercalate sep (a :: b :: l) = a ++ sep ++ List.intercalate sep (b :: l) := by
  simp [List.intercalate, List.intersperse_cons_cons]

/-- Splitting a space-joined list of nonempty whitespace-free words with
a whitespace-free tail appended: the tail glues onto the last word. -/
lemma pySplitAux_intercalate_tail (tail : List Char)
    (htail : ∀ c ∈ tail, c.isWhitespace = false) :
    ∀ (ws : List (List Char)) (w acc : List Char),
      (∀ u ∈ w :: ws, u ≠ [] ∧ ∀ c ∈ u, c.isWhitespace = false) →
      pySplitAux (List.intercalate [' '] (w :: ws) ++ tail) acc =
        ((acc ++ w) :: ws).dropLast ++
          [((acc ++ w) :: ws).getLast (List.cons_ne_nil _ _) ++ tail] := by
  intro ws
  induction ws with
  | nil =>
    intro w acc h
    obtain ⟨hw, hwc⟩ := h w (List.mem_cons_self _ _)
    rw [intercalate_single, pySplitAux_word w hwc tail acc,
      ← List.append_nil tail, pySplitAux_word tail htail [] (acc ++ w)]
    simp [pySplitAux, List.isEmpty_iff, hw, List.append_assoc]
  | cons w2 rest ih =>
    intro w acc h
    obtain ⟨hw, hwc⟩ := h w (List.mem_cons_self _ _)
    have h2 : ∀ u ∈ w2 :: rest, u ≠ [] ∧ ∀ c ∈ u, c.isWhitespace = false :=
      fun u hu => h u (List.mem_cons_of_mem _ hu)
    have hne : ¬ (acc ++ w).isEmpty := by
      simp [List.isEmpty_iff]
      intro _; exact hw
    rw [intercalate_cons_cons]
    have hassoc : (w ++ [' '] ++ List.intercalate [' '] (w2 :: rest)) ++ tail =
        w ++ (' ' :: (List.intercalate [' '] (w2 :: rest) ++ tail)) := by
      simp
    rw [hassoc, pySplitAux_word w hwc, pySplitAux_space, if_neg hne,
      ih w2 [] h2]
    simp

/-- Every word produced by `pySplit` is nonempty and whitespace-free. -/
lemma pySplitAux_good (s : List Char) :
    ∀ acc, (∀ c ∈ acc, c.isWhitespace = false) →
      ∀ w ∈ pySplitAux s acc, w ≠ [] ∧ ∀ c ∈ w, c.isWhitespace = false := by
  induction s with
  | nil =>
    intro acc hacc w hw
    simp only [pySplitAux] at hw
    by_cases h : acc.isEmpty
    · simp [h] at hw
    · simp [h] at hw
      subst hw
      exact ⟨by simpa [List.isEmpty_iff] using h, hacc⟩
  | cons c cs ih =>
    intro acc hacc w hw
    simp only [pySplitAux] at hw
    by_cases hcw : c.isWhitespace
    · simp only [hcw, if_true] at hw
      by_cases h : acc.isEmpty
      · simp only [h, if_true] at hw
        exact ih [] (by simp) w hw
      · simp only [h, if_false] at hw
        rcases List.mem_cons.mp hw with h1 | h2
        · subst h1
          exact ⟨by simpa [List.isEmpty_iff] using h, hacc⟩
        · exact ih [] (by simp) w h2
    · simp only [hcw, if_false] at hw
      refine ih (acc ++ [c]) ?_ w hw
      intro d hd
      rcases List.mem_append.mp hd with h1 | h2
      · exact hacc d h1
      · simp at h2
        subst h2
        simpa using hcw

/-- Truncating an already-truncated line changes nothing: the truncated
line splits back into exactly 6 words (the last carrying the `'...'`). -/
lemma optimizeLine_idem (line : PyStr) :
    optimizeLine (optimizeLine line) = optimizeLine line := by
  by_cases h6 : 6 < (pySplit line).length
  · have hgood : ∀ u ∈ (pySplit line).take 6,
        u ≠ [] ∧ ∀ c ∈ u, c.isWhitespace = false := by
      intro u hu
      exact pySplitAux_good line [] (by simp) u (List.take_subset 6 _ hu)
    have hdots : ∀ c ∈ "...".toList, c.isWhitespace = false := by decide
    have hlen6 : ((pySplit line).take 6).length = 6 := by
      simp [List.length_take]
      omega
    have hres : optimizeLine line =
        List.intercalate [' '] ((pySplit line).take 6) ++ "...".toList := by
      simp [optimizeLine, h6]
    cases ht : (pySplit line).take 6 with
    | nil => rw [ht] at hlen6; simp at hlen6
    | cons w rest =>
      have hsplit : pySplit (optimizeLine line) =
          ((([] : List Char) ++ w) :: rest).dropLast ++
            [((([] : List Char) ++ w) :: rest).getLast (List.cons_ne_nil _ _) ++
              "...".toList] := by
        rw [hres, ht]
        exact pySplitAux_intercalate_tail "...".toList hdots rest w []
          (ht ▸ hgood)
      have hlen : (pySplit (optimizeLine line)).length = 6 := by
        rw [hsplit]
        have : rest.length = 5 := by
          rw [ht] at hlen6
          simpa using hlen6
        simp [this]
      rw [optimizeLine]
      simp only [hlen]
      norm_num
  · have h : optimizeLine line = line := by simp [optimizeLine, h6]
    rw [h, h]

/-- C9: `optimize_content_for_6x6` is idempotent. -/
theorem optimize6x6_idempotent (c : List PyStr) :
    optimize_content_for_6x6 (optimize_content_for_6x6 c) =
      optimize_content_for_6x6 c := by
  have hlen : (optimize_content_for_6x6 c).length ≤ 6 := by
    simp [optimize_content_for_6x6]
  rw [optimize_content_for_6x6, List.take_of_length_le hlen]
  rw [optimize_content_for_6x6, List.map_map]
  exact List.map_congr_left (fun line _ => optimizeLine_idem line)

lemma flattenGroups_addEntry (k : JKey) (e : SpendEntry) :
    ∀ acc, List.Perm (flattenGroups (addEntry k e acc))
      (flattenGroups acc ++ [(k, e)]) := by
  intro acc
  induction acc with
  | nil => simp [flattenGroups, addEntry]
  | cons p rest ih =>
    obtain ⟨k2, l⟩ := p
    by_cases h : k2 = k
    · subst h
      have heq : addEntry k2 e ((k2, l) :: rest) = (k2, l ++ [e]) :: rest := by
        simp [addEntry]
      rw [heq]
      simp only [flattenGroups, List.flatMap_cons, List.map_append,
        List.append_assoc]
      exact List.Perm.append_left _ List.perm_append_comm
    · simp only [addEntry, if_neg h, flattenGroups, List.flatMap_cons]
      rw [List.append_assoc]
      exact List.Perm.append_left _ (by simpa [flattenGroups] using ih)

lemma keys_addEntry (k : JKey) (e : SpendEntry) :
    ∀ acc, (addEntry k e acc).map Prod.fst =
      if k ∈ acc.map Prod.fst then acc.map Prod.fst
      else acc.map Prod.fst ++ [k] := by
  intro acc
  induction acc with
  | nil => simp [addEntry]
  | cons p rest ih =>
    obtain ⟨k2, l⟩ := p
    by_cases h : k2 = k
    · subst h
      simp [addEntry]
    · simp only [addEntry, if_neg h, List.map_cons, ih]
      have hne : ¬ (k = k2) := fun hk => h hk.symm
      by_cases hm : k ∈ rest.map Prod.fst
      · simp [hm, hne]
      · simp [hm, hne]

lemma nodup_keys_addEntry (k : JKey) (e : SpendEntry)
    (acc : List (JKey × List SpendEntry))
    (h : (acc.map Prod.fst).Nodup) : ((addEntry k e acc).map Prod.fst).Nodup := by
  rw [keys_addEntry]
  by_cases hm : k ∈ acc.map Prod.fst
  · simpa [hm] using h
  · simp only [hm, if_false]
    rw [List.nodup_append]
    refine ⟨h, List.nodup_singleton k, ?_⟩
    simpa [List.disjoint_singleton] using hm

lemma grouped_foldl_spec (rs : List SpendRecord) :
    ∀ acc,
      List.Perm
        (flattenGroups (rs.foldl
          (fun acc r => addEntry r.feedmob_click_url_id (toEntry r) acc) acc))
        (flattenGroups acc ++
          rs.map (fun r => (r.feedmob_click_url_id, toEntry r))) ∧
      ((acc.map Prod.fst).Nodup →
        (((rs.foldl (fun acc r => addEntry r.feedmob_click_url_id
          (toEntry r) acc) acc)).map Prod.fst).Nodup) := by
  induction rs with
  | nil => intro acc; simp
  | cons r rest ih =>
    intro acc
    constructor
    · rw [List.foldl_cons]
      refine ((ih (addEntry r.feedmob_click_url_id (toEntry r) acc)).1).trans ?_
      refine (List.Perm.append_right _
        (flattenGroups_addEntry r.feedmob_click_url_id (toEntry r) acc)).trans ?_
      simp only [List.map_cons, List.append_assoc, List.singleton_append]
      exact List.Perm.refl _
    · intro hnd
      rw [List.foldl_cons]
      exact (ih _).2 (nodup_keys_addEntry _ _ _ hnd)

lemma flattenGroups_map_sort (g : List (JKey × List SpendEntry)) :
    List.Perm
      (flattenGroups (g.map (fun p => (p.1, List.insertionSort dateLe p.2))))
      (flattenGroups g) := by
  induction g with
  | nil => simp [flattenGroups]
  | cons p rest ih =>
    simp only [flattenGroups, List.map_cons, List.flatMap_cons]
    exact List.Perm.append
      (List.Perm.map _ (List.perm_insertionSort dateLe p.2))
      (by simpa [flattenGroups] using ih)

/-- C2: `parse_direct_spend_data` partitions its input — group keys are
pairwise distinct, and the `(key, entry)` pairs of all groups are a
permutation of the input records' `(click-url id, entry)` pairs (no
record lost, none duplicated) — and every group is sorted by date in
non-decreasing order. -/
theorem parse_direct_spend_partition (records : List SpendRecord) :
    ((parse_direct_spend_data records).map Prod.fst).Nodup ∧
    List.Perm (flattenGroups (parse_direct_spend_data records))
      (records.map (fun r => (r.feedmob_click_url_id, toEntry r))) ∧
    ∀ p ∈ parse_direct_spend_data records, p.2.Sorted dateLe := by
  refine ⟨?_, ?_, ?_⟩
  · have h := (grouped_foldl_spec records []).2 (by simp)
    simpa [parse_direct_spend_data, List.map_map, Function.comp] using h
  · have h1 := flattenGroups_map_sort (records.foldl
      (fun acc r => addEntry r.feedmob_click_url_id (toEntry r) acc) [])
    have h2 := (grouped_foldl_spec records []).1
    simp only [flattenGroups, List.flatMap_nil, List.nil_append] at h2
    have h1x : List.Perm (flattenGroups (parse_direct_spend_data records))
        (flattenGroups (records.foldl
          (fun acc r => addEntry r.feedmob_click_url_id (toEntry r) acc) [])) := by
      simpa [parse_direct_spend_data] using h1
    exact h1x.trans h2
  · intro p hp
    simp only [parse_direct_spend_data, List.mem_map] at hp
    obtain ⟨q, _, rfl⟩ := hp
    exact List.sorted_insertionSort dateLe q.2

/-- C2 witness: the partition theorem applied to three concrete records
with two distinct click URLs and out-of-order dates. -/
theorem parse_direct_spend_partition_witness :
    ((parse_direct_spend_data
      [⟨JKey.knum 1, "2024-01-02".toList, 10, 12, none⟩,
       ⟨JKey.knum 1, "2024-01-01".toList, 5, 6, some "Cmp".toList⟩,
       ⟨JKey.knum 2, "2024-01-01".toList, 1, 2, none⟩]).map Prod.fst).Nodup ∧
    List.Perm
      (flattenGroups (parse_direct_spend_data
        [⟨JKey.knum 1, "2024-01-02".toList, 10, 12, none⟩,
         ⟨JKey.knum 1, "2024-01-01".toList, 5, 6, some "Cmp".toList⟩,
         ⟨JKey.knum 2, "2024-01-01".toList, 1, 2, none⟩]))
      ([⟨JKey.knum 1, "2024-01-02".toList, 10, 12, none⟩,
        ⟨JKey.knum 1, "2024-01-01".toList, 5, 6, some "Cmp".toList⟩,
        ⟨JKey.knum 2, "2024-01-01".toList, 1, 2, none⟩].map
          (fun r => (r.feedmob_click_url_id, toEntry r))) ∧
    List.Sorted dateLe
      [⟨"2024-01-01".toList, 5, 6, "Cmp".toList⟩,
       ⟨"2024-01-02".toList, 10, 12, "Unknown".toList⟩] :=
  ⟨(parse_direct_spend_partition _).1,
   (parse_direct_spend_partition _).2.1,
   (parse_direct_spend_partition
      [⟨JKey.knum 1, "2024-01-02".toList, 10, 12, none⟩,
       ⟨JKey.knum 1, "2024-01-01".toList, 5, 6, some "Cmp".toList⟩,
       ⟨JKey.knum 2, "2024-01-01".toList, 1, 2, none⟩]).2.2
     (JKey.knum 1,
      [⟨"2024-01-01".toList, 5, 6, "Cmp".toList⟩,
       ⟨"2024-01-02".toList, 10, 12, "Unknown".toList⟩])
     (by decide)⟩

lemma scanCategories_some_exists (choose : List PyStr → PyStr)
    (existsF : PyStr → Bool) (ft : PyStr) :
    ∀ (l : List (PyStr × List PyStr)) (p : PyStr),
      scanCategories choose existsF ft l = some p → existsF p = true := by
  intro l
  induction l with
  | nil => intro p h; simp [scanCategories] at h
  | cons q rest ih =>
    intro p h
    obtain ⟨cat, bgs⟩ := q
    simp only [scanCategories] at h
    by_cases h1 : strHas ft cat
    · simp only [h1, if_true] at h
      by_cases h2 : existsF (bgPath (choose bgs))
      · simp only [h2, if_true, Option.some.injEq] at h
        rw [← h]
        exact h2
      · simp only [h2, Bool.false_eq_true, if_false] at h
        exact ih p h
    · simp only [h1, Bool.false_eq_true, if_false] at h
      exact ih p h

lemma scanCategories_characterize (choose : List PyStr → PyStr)
    (existsF : PyStr → Bool) (ft : PyStr)
    (hchoose : ∀ l : List PyStr, l ≠ [] → choose l ∈ l) :
    ∀ (l : List (PyStr × List PyStr)), (∀ q ∈ l, q.2 ≠ []) →
      ∀ p, scanCategories choose existsF ft l = some p →
        ∃ q ∈ l, strHas ft q.1 = true ∧
          ∃ b ∈ q.2, existsF (bgPath b) = true ∧ p = bgPath b := by
  intro l
  induction l with
  | nil => intro _ p h; simp [scanCategories] at h
  | cons q rest ih =>
    intro hne p h
    obtain ⟨cat, bgs⟩ := q
    simp only [scanCategories] at h
    by_cases h1 : strHas ft cat
    · simp only [h1, if_true] at h
      by_cases h2 : existsF (bgPath (choose bgs))
      · simp only [h2, if_true, Option.some.injEq] at h
        refine ⟨(cat, bgs), List.mem_cons_self _ _, h1, choose bgs, ?_, h2, h.symm⟩
        exact hchoose bgs (hne (cat, bgs) (List.mem_cons_self _ _))
      · simp only [h2, Bool.false_eq_true, if_false] at h
        obtain ⟨q2, hq2, hrest⟩ :=
          ih (fun u hu => hne u (List.mem_cons_of_mem _ hu)) p h
        exact ⟨q2, List.mem_cons_of_mem _ hq2, hrest⟩
    · simp only [h1, Bool.false_eq_true, if_false] at h
      obtain ⟨q2, hq2, hrest⟩ :=
        ih (fun u hu => hne u (List.mem_cons_of_mem _ hu)) p h
      exact ⟨q2, List.mem_cons_of_mem _ hq2, hrest⟩

lemma scanCategories_hit (choose : List PyStr → PyStr)
    (existsF : PyStr → Bool) (ft : PyStr) :
    ∀ (l : List (PyStr × List PyStr)),
      (∃ q ∈ l, strHas ft q.1 = true ∧ existsF (bgPath (choose q.2)) = true) →
      scanCategories choose existsF ft l ≠ none := by
  intro l
  induction l with
  | nil => rintro ⟨q, hq, _⟩; simp at hq
  | cons q0 rest ih =>
    rintro ⟨q, hq, hmatch, hex⟩
    obtain ⟨cat, bgs⟩ := q0
    simp only [scanCategories]
    by_cases h1 : strHas ft cat
    · simp only [h1, if_true]
      by_cases h2 : existsF (bgPath (choose bgs))
      · simp [h2]
      · simp only [h2, Bool.false_eq_true, if_false]
        rcases List.mem_cons.mp hq with rfl | hq2
        · exact absurd hex (by simpa using h2)
        · exact ih ⟨q, hq2, hmatch, hex⟩
    · simp only [h1, Bool.false_eq_true, if_false]
      rcases List.mem_cons.mp hq with rfl | hq2
      · exact absurd hmatch (by simpa using h1)
      · exact ih ⟨q, hq2, hmatch, hex⟩

lemma scanCategories_none_of_nomatch (choose : List PyStr → PyStr)
    (existsF : PyStr → Bool) (ft : PyStr) :
    ∀ (l : List (PyStr × List PyStr)),
      (∀ q ∈ l, strHas ft q.1 = false) →
      scanCategories choose existsF ft l = none := by
  intro l
  induction l with
  | nil => intro _; rfl
  | cons q rest ih =>
    intro h
    obtain ⟨cat, bgs⟩ := q
    have h1 : strHas ft cat = false := h (cat, bgs) (List.mem_cons_self _ _)
    simp only [scanCategories, h1, Bool.false_eq_true, if_false]
    exact ih (fun u hu => h u (List.mem_cons_of_mem _ hu))

lemma scanCategories_none_of_nofiles (choose : List PyStr → PyStr)
    (existsF : PyStr → Bool) (ft : PyStr)
    (hchoose : ∀ l : List PyStr, l ≠ [] → choose l ∈ l) :
    ∀ (l : List (PyStr × List PyStr)),
      (∀ q ∈ l, q.2 ≠ [] ∧ ∀ b ∈ q.2, existsF (bgPath b) = false) →
      scanCategories choose existsF ft l = none := by
  intro l
  induction l with
  | nil => intro _; rfl
  | cons q rest ih =>
    intro h
    obtain ⟨cat, bgs⟩ := q
    obtain ⟨hne, hall⟩ := h (cat, bgs) (List.mem_cons_self _ _)
    have h2 : existsF (bgPath (choose bgs)) = false := hall _ (hchoose bgs hne)
    simp only [scanCategories, h2, Bool.false_eq_true, if_false, ite_self]
    exact ih (fun u hu => h u (List.mem_cons_of_mem _ hu))

/-- C7: background selection.  (i) If some category keyword of the
static table occurs in the combined lowercased title/content text and
the file drawn for such a matching category exists, the result is the
path of a candidate of a matching category whose file exists.  (ii) With
no keyword match the function falls back to a random choice among the
background assets whose files exist.  (iii) With no background asset
files at all it returns `none`. -/
theorem select_background_spec (choose : List PyStr → PyStr)
    (existsF : PyStr → Bool) (title : PyStr) (content : List PyStr)
    (hchoose : ∀ l : List PyStr, l ≠ [] → choose l ∈ l) :
    ((∃ q ∈ CONTENT_BACKGROUNDS, strHas (fullTextOf title content) q.1 = true ∧
        existsF (bgPath (choose q.2)) = true) →
      ∃ q ∈ CONTENT_BACKGROUNDS, strHas (fullTextOf title content) q.1 = true ∧
        ∃ b ∈ q.2, existsF (bgPath b) = true ∧
          select_background_by_content choose existsF title content =
            some (bgPath b)) ∧
    ((∀ q ∈ CONTENT_BACKGROUNDS, strHas (fullTextOf title content) q.1 = false) →
      BACKGROUND_IMAGES.filter (fun bg => existsF (bgPath bg)) ≠ [] →
      select_background_by_content choose existsF title content =
        some (bgPath (choose (BACKGROUND_IMAGES.filter (fun bg => existsF (bgPath bg))))) ∧
      choose (BACKGROUND_IMAGES.filter (fun bg => existsF (bgPath bg))) ∈
        BACKGROUND_IMAGES ∧
      existsF (bgPath (choose (BACKGROUND_IMAGES.filter
        (fun bg => existsF (bgPath bg))))) = true) ∧
    ((∀ b ∈ BACKGROUND_IMAGES, existsF (bgPath b) = false) →
      select_background_by_content choose existsF title content = none) := by
  refine ⟨?_, ?_, ?_⟩
  · intro hhit
    have hne : scanCategories choose existsF (fullTextOf title content)
        CONTENT_BACKGROUNDS ≠ none :=
      scanCategories_hit choose existsF _ _ hhit
    obtain ⟨p, hp⟩ := Option.ne_none_iff_exists'.mp hne
    obtain ⟨q, hq, hmatch, b, hb, hex, rfl⟩ :=
      scanCategories_characterize choose existsF _ hchoose
        CONTENT_BACKGROUNDS (by decide) p hp
    refine ⟨q, hq, hmatch, b, hb, hex, ?_⟩
    simp [select_background_by_content, hp]
  · intro hnomatch hfil
    have hnone := scanCategories_none_of_nomatch choose existsF
      (fullTextOf title content) CONTENT_BACKGROUNDS hnomatch
    have hmem := hchoose _ hfil
    have hmem2 := List.mem_filter.mp hmem
    refine ⟨?_, hmem2.1, hmem2.2⟩
    simp only [select_background_by_content, hnone]
    rw [if_neg (by simpa [List.isEmpty_iff] using hfil)]
  · intro hnofiles
    have hnone := scanCategories_none_of_nofiles choose existsF
      (fullTextOf title content) hchoose CONTENT_BACKGROUNDS ?_
    · have hfil : BACKGROUND_IMAGES.filter (fun bg => existsF (bgPath bg)) = [] :=
        List.filter_eq_nil_iff.mpr (fun b hb => by simp [hnofiles b hb])
      simp [select_background_by_content, hnone, hfil]
    · intro q hq
      have hsub : ∀ b ∈ q.2, b ∈ BACKGROUND_IMAGES := by
        have : ∀ u ∈ CONTENT_BACKGROUNDS, ∀ b ∈ u.2, b ∈ BACKGROUND_IMAGES := by
          decide
        exact this q hq
      have hne2 : q.2 ≠ [] := by
        have : ∀ u ∈ CONTENT_BACKGROUNDS, u.2 ≠ [] := by decide
        exact this q hq
      exact ⟨hne2, fun b hb => hnofiles b (hsub b hb)⟩

/-- C7 witness: the selection theorem applied to a title containing the
keyword `business` with an all-files-present filesystem, to a
keyword-free title, and to an empty filesystem. -/
theorem select_background_spec_witness :
    (∃ q ∈ CONTENT_BACKGROUNDS,
      strHas (fullTextOf "Business Update".toList []) q.1 = true ∧
      ∃ b ∈ q.2, (fun _ => true : PyStr → Bool) (bgPath b) = true ∧
        select_background_by_content (fun l => l.headD []) (fun _ => true)
          "Business Update".toList [] = some (bgPath b)) ∧
    select_background_by_content (fun l => l.headD []) (fun _ => true)
      "Quarterly Numbers".toList [] =
      some (bgPath "bg1.jpg".toList) ∧
    select_background_by_content (fun l => l.headD []) (fun _ => false)
      "Business Update".toList [] = none := by
  have hchoose : ∀ l : List PyStr, l ≠ [] → l.headD [] ∈ l := by
    intro l hl
    cases l with
    | nil => exact absurd rfl hl
    | cons a t => simp
  refine ⟨?_, ?_, ?_⟩
  · exact (select_background_spec (fun l => l.headD []) (fun _ => true)
      "Business Update".toList [] hchoose).1 (by decide)
  · have h := (select_background_spec (fun l => l.headD []) (fun _ => true)
      "Quarterly Numbers".toList [] hchoose).2.1 (by decide) (by decide)
    exact h.1.trans (by decide)
  · exact (select_background_spec (fun l => l.headD []) (fun _ => false)
      "Business Update".toList [] hchoose).2.2 (by decide)

/-- C10: every non-`none` path returned by the two asset-selection
functions refers to an existing file: the category branch returns only
after an existence check, and both fallbacks draw from lists already
filtered by existence.  Hence the downstream missing-file warning branch
of `add_logo_to_slide` cannot fire for auto-selected assets (under an
unchanged filesystem oracle). -/
theorem auto_selected_assets_exist (choose : List PyStr → PyStr)
    (existsF : PyStr → Bool) (title : PyStr) (content : List PyStr)
    (hchoose : ∀ l : List PyStr, l ≠ [] → choose l ∈ l) :
    (∀ p, select_background_by_content choose existsF title content = some p →
      existsF p = true) ∧
    (∀ p, select_logo_by_content choose existsF title content = some p →
      existsF p = true) := by
  constructor
  · intro p hp
    simp only [select_background_by_content] at hp
    cases hscan : scanCategories choose existsF (fullTextOf title content)
        CONTENT_BACKGROUNDS with
    | some q =>
      rw [hscan] at hp
      simp only [Option.some.injEq] at hp
      rw [← hp]
      exact scanCategories_some_exists choose existsF _ _ q hscan
    | none =>
      rw [hscan] at hp
      by_cases hfil : (BACKGROUND_IMAGES.filter
          (fun bg => existsF (bgPath bg))).isEmpty
      · simp [hfil] at hp
      · simp only [hfil, Bool.false_eq_true, if_false, Option.some.injEq] at hp
        have hne : BACKGROUND_IMAGES.filter (fun bg => existsF (bgPath bg)) ≠ [] := by
          intro h0
          exact hfil (by simp [h0])
        have hmem := hchoose _ hne
        have := (List.mem_filter.mp hmem).2
        rw [← hp]
        exact this
  · intro p hp
    simp only [select_logo_by_content] at hp
    by_cases hfil : (LOGO_IMAGES.filter (fun lg => existsF (logoPath lg))).isEmpty
    · simp [hfil] at hp
    · simp only [hfil, Bool.false_eq_true, if_false, Option.some.injEq] at hp
      have hne : LOGO_IMAGES.filter (fun lg => existsF (logoPath lg)) ≠ [] := by
        intro h0
        exact hfil (by simp [h0])
      have hmem := hchoose _ hne
      have := (List.mem_filter.mp hmem).2
      rw [← hp]
      exact this

/-- C10 witness: with only `bg3.png` and `fm_logo_2.png` present, both
selections return those files' paths, and the theorem certifies that the
returned paths exist. -/
theorem auto_selected_assets_exist_witness :
    (fun p => decide (p = bgPath "bg3.png".toList) ||
      decide (p = logoPath "fm_logo_2.png".toList) : PyStr → Bool)
      (bgPath "bg3.png".toList) = true ∧
    (fun p => decide (p = bgPath "bg3.png".toList) ||
      decide (p = logoPath "fm_logo_2.png".toList) : PyStr → Bool)
      (logoPath "fm_logo_2.png".toList) = true := by
  have hchoose : ∀ l : List PyStr, l ≠ [] → l.headD [] ∈ l := by
    intro l hl
    cases l with
    | nil => exact absurd rfl hl
    | cons a t => simp
  constructor
  · exact (auto_selected_assets_exist (fun l => l.headD [])
      (fun p => decide (p = bgPath "bg3.png".toList) ||
        decide (p = logoPath "fm_logo_2.png".toList))
      "Data Report".toList [] hchoose).1 (bgPath "bg3.png".toList) (by decide)
  · exact (auto_selected_assets_exist (fun l => l.headD [])
      (fun p => decide (p = bgPath "bg3.png".toList) ||
        decide (p = logoPath "fm_logo_2.png".toList))
      "Data Report".toList [] hchoose).2 (logoPath "fm_logo_2.png".toList) (by decide)

lemma select_logo_ne_none_iff (choose : List PyStr → PyStr)
    (existsF : PyStr → Bool) (t : PyStr) (c : List PyStr) :
    select_logo_by_content choose existsF t c ≠ none ↔
      LOGO_IMAGES.filter (fun lg => existsF (logoPath lg)) ≠ [] := by
  by_cases hfil : LOGO_IMAGES.filter (fun lg => existsF (logoPath lg)) = []
  · simp [select_logo_by_content, hfil]
  · have hb : (LOGO_IMAGES.filter (fun lg => existsF (logoPath lg))).isEmpty = false := by
      simpa [List.isEmpty_iff] using hfil
    simp [select_logo_by_content, hb, hfil]

lemma gate_logo_ne_none (g : Prop) [Decidable g] (choose : List PyStr → PyStr)
    (existsF : PyStr → Bool) (t : PyStr) (c : List PyStr) :
    (if g then select_logo_by_content choose existsF t c else none) ≠ none ↔
      g ∧ LOGO_IMAGES.filter (fun lg => existsF (logoPath lg)) ≠ [] := by
  by_cases hg : g
  · simp [hg, select_logo_ne_none_iff]
  · simp [hg]


/-- C8 (amended): in the JSON assembly dispatch a logo is applied to a
slide exactly when auto-logos is enabled, a logo asset file exists, and
either the slide's type is in the eligible set (`content`, `comparison`,
`visual_content`, `two_column`) with no background applied, or the
slide's type is `blank` with no `image` field (the blank branch skips
the `should_add_logo` eligibility check).  A slide that received a
background never receives a logo. -/
theorem slide_logo_policy (auto_backgrounds auto_logos : Bool)
    (choose : List PyStr → PyStr) (existsF : PyStr → Bool) (sd : SlideData) :
    ((slideAutoAssets auto_backgrounds auto_logos choose existsF sd).2 ≠ none ↔
      (auto_logos = true ∧
       LOGO_IMAGES.filter (fun lg => existsF (logoPath lg)) ≠ [] ∧
       ((sd.type ∈ ["content".toList, "comparison".toList,
           "visual_content".toList, "two_column".toList] ∧
         (slideAutoAssets auto_backgrounds auto_logos choose existsF sd).1 = none) ∨
        (sd.type = "blank".toList ∧ sd.image = none)))) ∧
    ((slideAutoAssets auto_backgrounds auto_logos choose existsF sd).1 ≠ none →
      (slideAutoAssets auto_backgrounds auto_logos choose existsF sd).2 = none) := by
  have hsl_vc : ∀ (t : PyStr) (b : Bool),
      should_add_logo "visual_content".toList t b = !b := by
    intro t b; cases b <;> rfl
  have hsl_ct : ∀ (t : PyStr) (b : Bool),
      should_add_logo "content".toList t b = !b := by
    intro t b; cases b <;> rfl
  have hsl_cmp : ∀ (t : PyStr) (b : Bool),
      should_add_logo "comparison".toList t b = !b := by
    intro t b; cases b <;> rfl
  have hsl_tc : ∀ (t : PyStr) (b : Bool),
      should_add_logo "two_column".toList t b = !b := by
    intro t b; cases b <;> rfl
  have hsl_md : ∀ (t : PyStr) (b : Bool),
      should_add_logo "metrics_dashboard".toList t b = false := by
    intro t b; cases b <;> rfl
  by_cases h1 : sd.type = "title".toList
  · have hbr : slideAutoAssets auto_backgrounds auto_logos choose existsF sd =
        (if sd.background_image = none ∧ auto_backgrounds
          then select_background_by_content choose existsF sd.title []
          else sd.background_image, none) := by
      rw [slideAutoAssets]
      rw [if_pos h1]
    rw [hbr, h1]
    refine ⟨?_, fun _ => rfl⟩
    simp [(by decide : ¬ (("title".toList : PyStr) ∈ ["content".toList,
      "comparison".toList, "visual_content".toList, "two_column".toList])),
      (by decide : ¬ (("title".toList : PyStr) = "blank".toList))]
  by_cases h2 : sd.type = "visual_content".toList
  · have hbr : slideAutoAssets auto_backgrounds auto_logos choose existsF sd =
        (let bg := if auto_backgrounds ∧ should_add_background sd.type sd.title false
            then select_background_by_content choose existsF sd.title sd.content
            else none
         (bg, if auto_logos ∧ should_add_logo sd.type sd.title bg.isSome
            then select_logo_by_content choose existsF sd.title sd.content
            else none)) := by
      rw [slideAutoAssets]
      rw [if_neg h1, if_pos h2]
    rw [hbr, h2]
    simp only []
    generalize (if auto_backgrounds ∧
        should_add_background "visual_content".toList sd.title false = true
      then select_background_by_content choose existsF sd.title sd.content
      else none) = bg
    rw [hsl_vc]
    constructor
    · cases bg <;> cases auto_logos <;>
        simp [select_logo_ne_none_iff,
          (by decide : ("visual_content".toList : PyStr) ∈ ["content".toList,
            "comparison".toList, "visual_content".toList, "two_column".toList]),
          (by decide : ¬ (("visual_content".toList : PyStr) = "blank".toList))]
    · intro hbg
      have : bg.isSome = true := Option.isSome_iff_ne_none.mpr hbg
      simp [this]
  by_cases h3 : sd.type = "metrics_dashboard".toList
  · have hbr : slideAutoAssets auto_backgrounds auto_logos choose existsF sd =
        (none, if auto_logos ∧ should_add_logo sd.type sd.title false
          then select_logo_by_content choose existsF sd.title []
          else none) := by
      rw [slideAutoAssets]
      rw [if_neg h1, if_neg h2, if_pos h3]
    rw [hbr, h3, hsl_md]
    refine ⟨?_, fun h => absurd rfl h⟩
    simp [(by decide : ¬ (("metrics_dashboard".toList : PyStr) ∈ ["content".toList,
      "comparison".toList, "visual_content".toList, "two_column".toList])),
      (by decide : ¬ (("metrics_dashboard".toList : PyStr) = "blank".toList))]
  by_cases h4 : sd.type = "content".toList
  · have hbr : slideAutoAssets auto_backgrounds auto_logos choose existsF sd =
        (let bg := if auto_backgrounds ∧ should_add_background sd.type sd.title false
            then select_background_by_content choose existsF sd.title sd.content
            else none
         (bg, if auto_logos ∧ should_add_logo sd.type sd.title bg.isSome
            then select_logo_by_content choose existsF sd.title sd.content
            else none)) := by
      rw [slideAutoAssets]
      rw [if_neg h1, if_neg h2, if_neg h3, if_pos h4]
    rw [hbr, h4]
    simp only []
    generalize (if auto_backgrounds ∧
        should_add_background "content".toList sd.title false = true
      then select_background_by_content choose existsF sd.title sd.content
      else none) = bg
    rw [hsl_ct]
    constructor
    · cases bg <;> cases auto_logos <;>
        simp [select_logo_ne_none_iff,
          (by decide : ("content".toList : PyStr) ∈ ["content".toList,
            "comparison".toList, "visual_content".toList, "two_column".toList]),
          (by decide : ¬ (("content".toList : PyStr) = "blank".toList))]
    · intro hbg
      have : bg.isSome = true := Option.isSome_iff_ne_none.mpr hbg
      simp [this]
  by_cases h5 : sd.type = "section_header".toList
  · have hbr : slideAutoAssets auto_backgrounds auto_logos choose existsF sd =
        (if auto_backgrounds ∧ should_add_background sd.type sd.title false
          then select_background_by_content choose existsF sd.title []
          else none, none) := by
      rw [slideAutoAssets]
      rw [if_neg h1, if_neg h2, if_neg h3, if_neg h4, if_pos h5]
    rw [hbr, h5]
    refine ⟨?_, fun _ => rfl⟩
    simp [(by decide : ¬ (("section_header".toList : PyStr) ∈ ["content".toList,
      "comparison".toList, "visual_content".toList, "two_column".toList])),
      (by decide : ¬ (("section_header".toList : PyStr) = "blank".toList))]
  by_cases h6 : sd.type = "comparison".toList
  · have hbr : slideAutoAssets auto_backgrounds auto_logos choose existsF sd =
        (none, if auto_logos ∧ should_add_logo sd.type sd.title false
          then select_logo_by_content choose existsF sd.title
            (sd.left_points ++ sd.right_points)
          else none) := by
      rw [slideAutoAssets]
      rw [if_neg h1, if_neg h2, if_neg h3, if_neg h4, if_neg h5, if_pos h6]
    rw [hbr, h6, hsl_cmp]
    refine ⟨?_, fun h => absurd rfl h⟩
    cases auto_logos <;>
      simp [select_logo_ne_none_iff,
        (by decide : ("comparison".toList : PyStr) ∈ ["content".toList,
          "comparison".toList, "visual_content".toList, "two_column".toList]),
        (by decide : ¬ (("comparison".toList : PyStr) = "blank".toList))]
  by_cases h7 : sd.type = "two_column".toList
  · have hbr : slideAutoAssets auto_backgrounds auto_logos choose existsF sd =
        (none, if auto_logos ∧ should_add_logo sd.type sd.title false
          then select_logo_by_content choose existsF sd.title
            (sd.left_content ++ sd.right_content)
          else none) := by
      rw [slideAutoAssets]
      rw [if_neg h1, if_neg h2, if_neg h3, if_neg h4, if_neg h5, if_neg h6,
        if_pos h7]
    rw [hbr, h7, hsl_tc]
    refine ⟨?_, fun h => absurd rfl h⟩
    cases auto_logos <;>
      simp [select_logo_ne_none_iff,
        (by decide : ("two_column".toList : PyStr) ∈ ["content".toList,
          "comparison".toList, "visual_content".toList, "two_column".toList]),
        (by decide : ¬ (("two_column".toList : PyStr) = "blank".toList))]
  by_cases h8 : sd.type = "blank".toList
  · have hbr : slideAutoAssets auto_backgrounds auto_logos choose existsF sd =
        (none, if auto_logos ∧ sd.image = none
          then select_logo_by_content choose existsF
            (sd.text.getD "Blank Slide".toList) []
          else none) := by
      rw [slideAutoAssets]
      rw [if_neg h1, if_neg h2, if_neg h3, if_neg h4, if_neg h5, if_neg h6,
        if_neg h7, if_pos h8]
    rw [hbr, h8]
    refine ⟨?_, fun h => absurd rfl h⟩
    cases auto_logos <;> by_cases himg : sd.image = none <;>
      simp [himg, select_logo_ne_none_iff,
        (by decide : ¬ (("blank".toList : PyStr) ∈ ["content".toList,
          "comparison".toList, "visual_content".toList, "two_column".toList]))]
  · have hbr : slideAutoAssets auto_backgrounds auto_logos choose existsF sd =
        (none, none) := by
      rw [slideAutoAssets]
      rw [if_neg h1, if_neg h2, if_neg h3, if_neg h4, if_neg h5, if_neg h6,
        if_neg h7, if_neg h8]
    rw [hbr]
    refine ⟨?_, fun _ => rfl⟩
    simp [List.mem_cons, h2, h4, h6, h7, h8]
    exact fun _ x _ _ => ⟨⟨h4, h6, h2, h7⟩, fun hb => absurd hb h8⟩

/-- C8 counterexample to the claim as stated: a `blank` slide with no
image receives a logo even though `blank` is not in the eligible set
(`content`, `comparison`, `visual_content`, `two_column`). -/
theorem slide_blank_logo_cex :
    (slideAutoAssets true true (fun l => l.headD []) (fun _ => true)
      ⟨"blank".toList, [], [], [], [], [], [], none, none, none⟩).2 =
      some (logoPath "fm_logo_1.png".toList) ∧
    ("blank".toList : PyStr) ∉ ["content".toList, "comparison".toList,
      "visual_content".toList, "two_column".toList] := by
  constructor
  · decide
  · decide

/-- C8 witness: the amended policy applied to a keyword-free `content`
slide with every asset file present: a logo is applied. -/
theorem slide_logo_policy_witness :
    (slideAutoAssets true true (fun l => l.headD []) (fun _ => true)
      ⟨"content".toList, "Team Sync".toList, [], [], [], [], [],
       none, none, none⟩).2 ≠ none :=
  (slide_logo_policy true true (fun l => l.headD []) (fun _ => true)
    ⟨"content".toList, "Team Sync".toList, [], [], [], [], [],
     none, none, none⟩).1.mpr
    ⟨rfl, by decide, Or.inl ⟨by decide, by decide⟩⟩

lemma foldl_min_const (v : ℚ) : ∀ xs : List ℚ, (∀ x ∈ xs, x = v) →
    xs.foldl min v = v := by
  intro xs
  induction xs with
  | nil => intro _; rfl
  | cons y ys ih =>
    intro h
    have hy : y = v := h y (List.mem_cons_self _ _)
    rw [List.foldl_cons, hy, min_self]
    exact ih (fun x hx => h x (List.mem_cons_of_mem _ hx))

lemma foldl_max_const (v : ℚ) : ∀ xs : List ℚ, (∀ x ∈ xs, x = v) →
    xs.foldl max v = v := by
  intro xs
  induction xs with
  | nil => intro _; rfl
  | cons y ys ih =>
    intro h
    have hy : y = v := h y (List.mem_cons_self _ _)
    rw [List.foldl_cons, hy, max_self]
    exact ih (fun x hx => h x (List.mem_cons_of_mem _ hx))

lemma pyMin_const (v : ℚ) (l : List ℚ) (h : ∀ x ∈ l, x = v) (hne : l ≠ []) :
    pyMin l = v := by
  cases l with
  | nil => exact absurd rfl hne
  | cons x xs =>
    have hx : x = v := h x (List.mem_cons_self _ _)
    rw [pyMin, hx]
    exact foldl_min_const v xs (fun y hy => h y (List.mem_cons_of_mem _ hy))

lemma pyMax_const (v : ℚ) (l : List ℚ) (h : ∀ x ∈ l, x = v) (hne : l ≠ []) :
    pyMax l = v := by
  cases l with
  | nil => exact absurd rfl hne
  | cons x xs =>
    have hx : x = v := h x (List.mem_cons_self _ _)
    rw [pyMax, hx]
    exact foldl_max_const v xs (fun y hy => h y (List.mem_cons_of_mem _ hy))

lemma chartLines_head_shape (data : List SpendEntry) (title : PyStr)
    (width height : ℕ) : ∃ rest, chartLines data title width height =
      ('\n' :: List.replicate width '=') :: rest :=
  ⟨_, rfl⟩

lemma intercalate_cons_exists (sep a : List Char) (l : List (List Char)) :
    ∃ t, List.intercalate sep (a :: l) = a ++ t := by
  cases l with
  | nil => exact ⟨[], by simp [intercalate_single]⟩
  | cons b r =>
    exact ⟨sep ++ List.intercalate sep (b :: r),
      by rw [intercalate_cons_cons]; simp [List.append_assoc]⟩

/-- C3: on a nonempty group whose net and gross spends are all the same
value, the scaling bounds of `create_ascii_line_chart` are bumped so
that the scale denominator `max_val - min_val` is `1`, not `0` (no
division by zero), and the function still returns the rendered chart,
not the no-data message. -/
theorem chart_equal_values_safe (data : List SpendEntry) (v : ℚ) (title : PyStr)
    (hne : data ≠ [])
    (hv : ∀ e ∈ data, e.net_spend = v ∧ e.gross_spend = v) :
    (chartBounds data).2 - (chartBounds data).1 = 1 ∧
    (chartBounds data).2 - (chartBounds data).1 ≠ 0 ∧
    create_ascii_line_chart data title 60 15 ≠ "No data to display".toList := by
  have hall : ∀ x ∈ data.map (fun e => e.net_spend) ++
      data.map (fun e => e.gross_spend), x = v := by
    intro x hx
    rcases List.mem_append.mp hx with h | h <;>
      obtain ⟨e, he, rfl⟩ := List.mem_map.mp h
    · exact (hv e he).1
    · exact (hv e he).2
  have hne2 : data.map (fun e => e.net_spend) ++
      data.map (fun e => e.gross_spend) ≠ [] := by
    simp [hne]
  have hbounds : chartBounds data = (v, v + 1) := by
    rw [chartBounds]
    simp [pyMin_const v _ hall hne2, pyMax_const v _ hall hne2]
  refine ⟨by rw [hbounds]; ring, by rw [hbounds]; norm_num, ?_⟩
  have hempty : data.isEmpty = false := by simpa [List.isEmpty_iff] using hne
  rw [create_ascii_line_chart, if_neg (by simp [hempty])]
  obtain ⟨rest, hr⟩ := chartLines_head_shape data title 60 15
  rw [hr]
  obtain ⟨t, ht⟩ := intercalate_cons_exists ['\n'] _ rest
  rw [ht]
  intro habs
  have h2 := congrArg (fun l => l.headD ' ') habs
  simp at h2

/-- C3 witness: the safety theorem applied to a one-point group with
net = gross = 10. -/
theorem chart_equal_values_safe_witness :
    (chartBounds [⟨"2024-01-01".toList, 10, 10, "X".toList⟩]).2 -
      (chartBounds [⟨"2024-01-01".toList, 10, 10, "X".toList⟩]).1 = 1 ∧
    create_ascii_line_chart [⟨"2024-01-01".toList, 10, 10, "X".toList⟩]
      "t".toList 60 15 ≠ "No data to display".toList := by
  have h := chart_equal_values_safe [⟨"2024-01-01".toList, 10, 10, "X".toList⟩]
    10 "t".toList (by decide) (by decide)
  exact ⟨h.1, h.2.2⟩

lemma foldl_marks (m s : ℕ → List Char) :
    ∀ (l : List ℕ) (init : List Char),
      l.foldl (fun acc i => acc ++ m i ++ s i) init =
        init ++ l.flatMap (fun i => m i ++ s i) := by
  intro l
  induction l with
  | nil => intro init; simp
  | cons a t ih =>
    intro init
    rw [List.foldl_cons, ih, List.flatMap_cons]
    simp [List.append_assoc]

lemma plotBody_eq_flatMap (netS grossS : List ℤ) (row : ℤ) :
    plotBody netS grossS row = (List.range netS.length).flatMap (fun i =>
      (if netS.getD i 0 = row ∧ grossS.getD i 0 = row then ['*']
       else if netS.getD i 0 = row then ['N']
       else if grossS.getD i 0 = row then ['G'] else [' ']) ++
      (if i < netS.length - 1 then [' '] else [])) := by
  simp only [plotBody]
  rw [foldl_marks]
  simp

lemma flatMap_pairs_spec (m : ℕ → Char) :
    ∀ (k : ℕ),
      ((List.range k).flatMap (fun i => [m i, ' '])).length = 2 * k ∧
      (∀ i, i < k →
        ((List.range k).flatMap (fun i => [m i, ' '])).getD (2*i) '?' = m i) ∧
      (∀ i, i < k →
        ((List.range k).flatMap (fun i => [m i, ' '])).getD (2*i+1) '?' = ' ') := by
  intro k
  induction k with
  | zero => refine ⟨rfl, ?_, ?_⟩ <;> intro i hi <;> omega
  | succ k ih =>
    rw [List.range_succ, List.flatMap_append, List.flatMap_singleton]
    have hlen : ((List.range k).flatMap (fun i => [m i, ' '])).length = 2 * k := ih.1
    refine ⟨by simp [hlen]; omega, ?_, ?_⟩
    · intro i hi
      by_cases hik : i < k
      · rw [List.getD_append _ _ _ _ (by omega)]
        exact ih.2.1 i hik
      · have hik2 : i = k := by omega
        subst hik2
        rw [List.getD_append_right _ _ _ _ (by omega)]
        simp [hlen]
    · intro i hi
      by_cases hik : i < k
      · rw [List.getD_append _ _ _ _ (by omega)]
        exact ih.2.2 i hik
      · have hik2 : i = k := by omega
        subst hik2
        rw [List.getD_append_right _ _ _ _ (by omega)]
        simp [hlen]

lemma flatMap_marks_split (m : ℕ → Char) (n : ℕ) (hn : 0 < n) :
    (List.range n).flatMap (fun i => [m i] ++ if i < n - 1 then [' '] else []) =
      ((List.range (n-1)).flatMap (fun i => [m i, ' '])) ++ [m (n-1)] := by
  obtain ⟨k, rfl⟩ : ∃ k, n = k + 1 := ⟨n - 1, by omega⟩
  rw [List.range_succ, List.flatMap_append, List.flatMap_singleton]
  simp only [Nat.add_sub_cancel]
  congr 1
  · rw [List.flatMap, List.flatMap]
    congr 1
    apply List.map_congr_left
    intro i hi
    have : i < k := List.mem_range.mp hi
    simp [this]
  · simp

/-- C6: in each plotted chart row there is exactly one mark column per
data point (marks at even offsets, single separator spaces at odd
offsets, total width `2n - 1`); the mark is `'*'` when the scaled net
and gross values both equal the row, `'N'` when only the net does,
`'G'` when only the gross does, and blank otherwise; and line
`4 + (height - 1 - r)` of the chart output is the row line for row `r`,
namely the y-axis label followed by these marks. -/
theorem chart_marks_spec (netS grossS : List ℤ) (row : ℤ)
    (data : List SpendEntry) (title : PyStr) (width height r : ℕ)
    (hn : netS ≠ []) (hr : r < height) :
    (plotBody netS grossS row).length = 2 * netS.length - 1 ∧
    (∀ i, i < netS.length → (plotBody netS grossS row).getD (2*i) '?' =
      (if netS.getD i 0 = row ∧ grossS.getD i 0 = row then '*'
       else if netS.getD i 0 = row then 'N'
       else if grossS.getD i 0 = row then 'G' else ' ')) ∧
    (∀ i, i < netS.length - 1 →
      (plotBody netS grossS row).getD (2*i+1) '?' = ' ') ∧
    ((chartLines data title width height).getD (4 + (height - 1 - r)) [] =
      plotRowLine
        ((data.map (fun e => e.net_spend)).map
          (scaleValue (chartBounds data).1 (chartBounds data).2 height))
        ((data.map (fun e => e.gross_spend)).map
          (scaleValue (chartBounds data).1 (chartBounds data).2 height))
        (chartBounds data).1 (chartBounds data).2 height r) := by
  have hn0 : 0 < netS.length := List.length_pos.mpr hn
  have hconv : ∀ i : ℕ,
      (if netS.getD i 0 = row ∧ grossS.getD i 0 = row then ['*']
       else if netS.getD i 0 = row then ['N']
       else if grossS.getD i 0 = row then ['G'] else [' ']) =
      [if netS.getD i 0 = row ∧ grossS.getD i 0 = row then '*'
       else if netS.getD i 0 = row then 'N'
       else if grossS.getD i 0 = row then 'G' else ' '] := by
    intro i
    split_ifs <;> rfl
  have hbody : plotBody netS grossS row =
      ((List.range (netS.length - 1)).flatMap (fun i =>
        [if netS.getD i 0 = row ∧ grossS.getD i 0 = row then '*'
         else if netS.getD i 0 = row then 'N'
         else if grossS.getD i 0 = row then 'G' else ' ', ' '])) ++
      [if netS.getD (netS.length - 1) 0 = row ∧
          grossS.getD (netS.length - 1) 0 = row then '*'
       else if netS.getD (netS.length - 1) 0 = row then 'N'
       else if grossS.getD (netS.length - 1) 0 = row then 'G' else ' '] := by
    rw [plotBody_eq_flatMap]
    simp only [hconv]
    exact flatMap_marks_split _ _ hn0
  have hpairs := flatMap_pairs_spec (fun i =>
    if netS.getD i 0 = row ∧ grossS.getD i 0 = row then '*'
    else if netS.getD i 0 = row then 'N'
    else if grossS.getD i 0 = row then 'G' else ' ') (netS.length - 1)
  refine ⟨?_, ?_, ?_, ?_⟩
  · rw [hbody, List.length_append, hpairs.1]
    simp only [List.length_singleton]
    omega
  · intro i hi
    rw [hbody]
    by_cases hik : i < netS.length - 1
    · rw [List.getD_append _ _ _ _ (by rw [hpairs.1]; omega)]
      exact hpairs.2.1 i hik
    · have hieq : i = netS.length - 1 := by omega
      subst hieq
      rw [List.getD_append_right _ _ _ _ (le_of_eq hpairs.1)]
      rw [hpairs.1]
      simp [Nat.two_mul]
  · intro i hi
    rw [hbody]
    rw [List.getD_append _ _ _ _ (by rw [hpairs.1]; omega)]
    exact hpairs.2.2 i hi
  · have hx : height - 1 - r < height := by omega
    simp only [chartLines]
    rw [List.getD_append _ _ _ _ (by simp; omega)]
    rw [List.getD_append _ _ _ _ (by simp; omega)]
    rw [List.getD_append _ _ _ _ (by simp; omega)]
    rw [List.getD_append _ _ _ _ (by simp; omega)]
    rw [List.getD_append _ _ _ _ (by simp; omega)]
    rw [List.getD_append_right _ _ _ _ (by simp)]
    simp only [List.length_cons, List.length_nil]
    have hidx : 4 + (height - 1 - r) - 4 = height - 1 - r := by omega
    rw [hidx]
    have hlt : height - 1 - r <
        ((List.range height).reverse.map (plotRowLine
          ((data.map (fun e => e.net_spend)).map
            (scaleValue (chartBounds data).1 (chartBounds data).2 height))
          ((data.map (fun e => e.gross_spend)).map
            (scaleValue (chartBounds data).1 (chartBounds data).2 height))
          (chartBounds data).1 (chartBounds data).2 height)).length := by
      simpa using hx
    rw [List.getD_eq_getElem _ _ hlt]
    rw [List.getElem_map]
    rw [List.getElem_reverse]
    congr 1
    rw [List.getElem_range]
    simp only [List.length_range]
    omega

/-- C6 witness: the mark specification applied to the scaled series
`[0, 14]` and `[14, 14]` at row 14 (a `G` column, a separator, and a
`*` column), and the row-line placement for a one-point group. -/
theorem chart_marks_spec_witness :
    (plotBody [0, 14] [14, 14] 14).length = 2 * 2 - 1 ∧
    (plotBody [0, 14] [14, 14] 14).getD 0 '?' = 'G' ∧
    (plotBody [0, 14] [14, 14] 14).getD 2 '?' = '*' ∧
    (plotBody [0, 14] [14, 14] 14).getD 1 '?' = ' ' ∧
    (chartLines ([⟨"2024-01-01".toList, 1, 2, "X".toList⟩] : List SpendEntry) "t".toList 60 15).getD
        (4 + (15 - 1 - 3)) [] =
      plotRowLine
        ((([⟨"2024-01-01".toList, 1, 2, "X".toList⟩] : List SpendEntry).map
            (fun e => e.net_spend)).map
          (scaleValue
            (chartBounds ([⟨"2024-01-01".toList, 1, 2, "X".toList⟩] : List SpendEntry)).1
            (chartBounds ([⟨"2024-01-01".toList, 1, 2, "X".toList⟩] : List SpendEntry)).2 15))
        ((([⟨"2024-01-01".toList, 1, 2, "X".toList⟩] : List SpendEntry).map
            (fun e => e.gross_spend)).map
          (scaleValue
            (chartBounds ([⟨"2024-01-01".toList, 1, 2, "X".toList⟩] : List SpendEntry)).1
            (chartBounds ([⟨"2024-01-01".toList, 1, 2, "X".toList⟩] : List SpendEntry)).2 15))
        (chartBounds ([⟨"2024-01-01".toList, 1, 2, "X".toList⟩] : List SpendEntry)).1
        (chartBounds ([⟨"2024-01-01".toList, 1, 2, "X".toList⟩] : List SpendEntry)).2 15 3 := by
  have h := chart_marks_spec [0, 14] [14, 14] 14
    ([⟨"2024-01-01".toList, 1, 2, "X".toList⟩] : List SpendEntry) "t".toList 60 15 3
    (by decide) (by decide)
  refine ⟨h.1, ?_, ?_, ?_, h.2.2.2⟩
  · exact (h.2.1 0 (by decide)).trans (by decide)
  · exact (h.2.1 1 (by decide)).trans (by decide)
  · exact h.2.2.1 0 (by decide)

lemma except_bind_ok {α β ε : Type} (ma : Except ε α) (f : α → Except ε β)
    (b : β) (h : (ma >>= f) = Except.ok b) :
    ∃ a, ma = Except.ok a ∧ f a = Except.ok b := by
  cases ma with
  | error e => simp [Bind.bind, Except.bind] at h
  | ok a => exact ⟨a, rfl, by simpa [Bind.bind, Except.bind] using h⟩

lemma parseRecordJson_ok_hasRequired (r : Json) (v : JKey × SpendEntry)
    (h : parseRecordJson r = Except.ok v) : hasRequiredFields r = true := by
  unfold parseRecordJson at h
  obtain ⟨kid, h1, h⟩ := except_bind_ok _ _ _ h
  obtain ⟨k, hk, h⟩ := except_bind_ok _ _ _ h
  obtain ⟨d, h2, h⟩ := except_bind_ok _ _ _ h
  obtain ⟨date, hd, h⟩ := except_bind_ok _ _ _ h
  obtain ⟨n, h3, h⟩ := except_bind_ok _ _ _ h
  obtain ⟨net, hn, h⟩ := except_bind_ok _ _ _ h
  obtain ⟨g, h4, h⟩ := except_bind_ok _ _ _ h
  simp at h1 h2 h3 h4
  simp [hasRequiredFields, h1, h2, h3, h4, Except.isOk, Except.toBool]

lemma parseSpendAux_error (l : List Json)
    (hex : ∃ r ∈ l, hasRequiredFields r = false) :
    ∀ acc, ∃ m, parseSpendAux acc l = Except.error m := by
  induction l with
  | nil => obtain ⟨r, hr, _⟩ := hex; simp at hr
  | cons j rest ih =>
    intro acc
    obtain ⟨r, hr, hbad⟩ := hex
    cases hj : parseRecordJson j with
    | error e => exact ⟨e, by simp [parseSpendAux, hj]⟩
    | ok v =>
      rcases List.mem_cons.mp hr with rfl | hr2
      · exact absurd (parseRecordJson_ok_hasRequired _ _ hj) (by simp [hbad])
      · obtain ⟨m, hm⟩ := ih ⟨r, hr2, hbad⟩ (addEntry v.1 v.2 acc)
        exact ⟨m, by simp [parseSpendAux, hj, hm]⟩

/-- C5: error handling of `visualize_direct_spend`.  (i) A failed JSON
decode yields the literal parse-error string and nothing else.  (ii) A
parsed value whose record data is missing or empty (falsy) yields the
literal no-data message and nothing else.  (iii) A record list
containing a record that lacks one of the four required fields yields an
`"Error: ..."` string and nothing else — in every case the result is
exactly the message, with no partial chart output. -/
theorem visualize_error_handling :
    (∀ e, visualize_direct_spend (Except.error e) =
      "Error: Invalid JSON data - ".toList ++ e) ∧
    (∀ j, truthy (extractRecords j) = false →
      visualize_direct_spend (Except.ok j) = noDataMsg) ∧
    (∀ l : List Json, (∃ r ∈ l, hasRequiredFields r = false) →
      ∃ m, visualize_direct_spend (Except.ok (Json.arr l)) =
        "Error: ".toList ++ m) := by
  refine ⟨fun e => rfl, ?_, ?_⟩
  · intro j hj
    simp [visualize_direct_spend, visualize_core, hj]
  · intro l hex
    have hne : l ≠ [] := by
      obtain ⟨r, hr, _⟩ := hex
      exact List.ne_nil_of_mem hr
    have hrec : extractRecords (Json.arr l) = Json.arr l := rfl
    have htr : truthy (extractRecords (Json.arr l)) = true := by
      rw [hrec]
      simpa [truthy, List.isEmpty_iff] using hne
    obtain ⟨m, hm⟩ := parseSpendAux_error l hex []
    refine ⟨m, ?_⟩
    rw [hrec] at htr
    simp [visualize_direct_spend, visualize_core, htr, hrec,
      parse_direct_spend_json, hm, Except.map]

/-- C5 witness: the error-handling theorem applied to a malformed JSON
string, an empty record array, and a record lacking
`feedmob_click_url_id`. -/
theorem visualize_error_handling_witness :
    visualize_direct_spend (Except.error "Expecting value".toList) =
      "Error: Invalid JSON data - ".toList ++ "Expecting value".toList ∧
    visualize_direct_spend (Except.ok (Json.arr [])) = noDataMsg ∧
    ∃ m, visualize_direct_spend (Except.ok (Json.arr
      [Json.obj [("date".toList, Json.str "2024-01-01".toList)]])) =
      "Error: ".toList ++ m :=
  ⟨visualize_error_handling.1 _,
   visualize_error_handling.2.1 (Json.arr []) (by decide),
   visualize_error_handling.2.2 _
     ⟨Json.obj [("date".toList, Json.str "2024-01-01".toList)],
      by simp, by decide⟩⟩
